import Mathlib

/-!
Verification of the vector store and retrieval pipeline of the AIE8 repository
(`02_Embeddings_and_RAG`): `aimakerspace/vectordatabase.py`,
`aimakerspace/text_utils.py` and `enhanced_rag_pipeline.py`.

Modelling conventions (shallow embedding):
* Python `float` arithmetic is modelled over `ℚ`.  `numpy`'s square root
  (inside `np.linalg.norm`) is modelled by `npSqrt`, which is exact whenever
  the argument is a perfect square; every concrete evaluation in this file
  only takes square roots of perfect squares, where the model agrees with
  real square roots.  Division by zero follows Lean's `x / 0 = 0` convention;
  no concrete evaluation divides by zero.
* A Python `dict` (insertion ordered) is modelled by an association list
  `List (κ × α)` together with `dictInsert` (overwrite keeps the original
  position, a fresh key is appended at the end), `dictGet?` and `dictHas`.
* Python strings are Lean `String`s; for the character-level text splitter a
  Python string is modelled by its list of characters (`List Char`).
* Metadata dictionaries map string keys to `MetaVal` values (the value
  universe is restricted to the constructors the verified code paths touch:
  strings, integers and `None`).
* Methods that can raise are modelled with `Except String`; collaborator
  objects (embedding model, chat model) are modelled as function parameters
  returning `Except String` results.
-/

/-! ### Python dictionaries as association lists -/

/-- Membership test of a key in an insertion-ordered dictionary. -/
def dictHas [DecidableEq κ] (l : List (κ × α)) (k : κ) : Bool :=
  l.any fun p => decide (p.1 = k)

/-- `d.get(k)`: the value stored at `k`, if any. -/
def dictGet? [DecidableEq κ] (l : List (κ × α)) (k : κ) : Option α :=
  (l.find? fun p => decide (p.1 = k)).map fun p => p.2

/-- `d.get(k, default)`. -/
def dictGetD [DecidableEq κ] (l : List (κ × α)) (k : κ) (d : α) : α :=
  (dictGet? l k).getD d

/-- `d[k] = v`: overwrite in place if the key exists, else append. -/
def dictInsert [DecidableEq κ] (l : List (κ × α)) (k : κ) (v : α) : List (κ × α) :=
  if dictHas l k then l.map fun p => if p.1 = k then (k, v) else p
  else l ++ [(k, v)]

theorem dictGet?_nil [DecidableEq κ] (k : κ) : dictGet? ([] : List (κ × α)) k = Option.none :=
  rfl

theorem dictGet?_cons [DecidableEq κ] (p : κ × α) (t : List (κ × α)) (k : κ) :
    dictGet? (p :: t) k = if p.1 = k then some p.2 else dictGet? t k := by
  by_cases hp : p.1 = k
  · simp [dictGet?, List.find?_cons_of_pos, hp]
  · simp [dictGet?, List.find?_cons_of_neg, hp]

theorem dictHas_cons [DecidableEq κ] (p : κ × α) (t : List (κ × α)) (k : κ) :
    dictHas (p :: t) k = (decide (p.1 = k) || dictHas t k) := by
  simp [dictHas]

theorem dictGet?_of_not_has [DecidableEq κ] {l : List (κ × α)} {k : κ}
    (h : dictHas l k = false) : dictGet? l k = Option.none := by
  induction l with
  | nil => rfl
  | cons p t ih =>
    rw [dictHas_cons, Bool.or_eq_false_iff] at h
    rw [dictGet?_cons, if_neg (by simpa using h.1)]
    exact ih h.2

theorem dictInsert_of_not_has [DecidableEq κ] {l : List (κ × α)} {k : κ} (v : α)
    (h : dictHas l k = false) : dictInsert l k v = l ++ [(k, v)] := by
  simp [dictInsert, h]

theorem length_dictInsert_of_not_has [DecidableEq κ] {l : List (κ × α)} {k : κ} (v : α)
    (h : dictHas l k = false) : (dictInsert l k v).length = l.length + 1 := by
  simp [dictInsert_of_not_has v h]

theorem dictGet?_append_of_not_has [DecidableEq κ] {t : List (κ × α)} {k : κ} (v : α)
    (h : dictHas t k = false) : dictGet? (t ++ [(k, v)]) k = some v := by
  induction t with
  | nil => simp [dictGet?_cons]
  | cons p t ih =>
    rw [dictHas_cons, Bool.or_eq_false_iff] at h
    rw [List.cons_append, dictGet?_cons, if_neg (by simpa using h.1)]
    exact ih h.2

theorem dictGet?_insert_self [DecidableEq κ] (l : List (κ × α)) (k : κ) (v : α) :
    dictGet? (dictInsert l k v) k = some v := by
  by_cases h : dictHas l k
  · rw [dictInsert, if_pos h]
    induction l with
    | nil => simp [dictHas] at h
    | cons p t ih =>
      by_cases hp : p.1 = k
      · rw [List.map_cons, if_pos hp, dictGet?_cons, if_pos rfl]
      · rw [dictHas_cons, Bool.or_eq_true] at h
        have ht : dictHas t k = true := by
          rcases h with h | h
          · exact absurd (of_decide_eq_true h) hp
          · exact h
        rw [List.map_cons, if_neg hp, dictGet?_cons, if_neg hp]
        exact ih ht
  · rw [dictInsert_of_not_has v (by simpa using h)]
    exact dictGet?_append_of_not_has v (by simpa using h)

theorem dictGet?_insert_ne [DecidableEq κ] (l : List (κ × α)) {k k' : κ} (v : α)
    (hne : k' ≠ k) : dictGet? (dictInsert l k v) k' = dictGet? l k' := by
  by_cases h : dictHas l k
  · rw [dictInsert, if_pos h]
    clear h
    induction l with
    | nil => rfl
    | cons p t ih =>
      by_cases hp : p.1 = k
      · have hpk' : ¬ p.1 = k' := fun hh => hne (hh.symm.trans hp)
        rw [List.map_cons, if_pos hp, dictGet?_cons, dictGet?_cons,
          if_neg (fun hh : k = k' => hne hh.symm), if_neg hpk']
        exact ih
      · rw [List.map_cons, if_neg hp, dictGet?_cons, dictGet?_cons]
        by_cases hk' : p.1 = k'
        · rw [if_pos hk', if_pos hk']
        · rw [if_neg hk', if_neg hk']
          exact ih
  · rw [dictInsert_of_not_has v (by simpa using h)]
    clear h
    induction l with
    | nil =>
      rw [List.nil_append, dictGet?_cons, if_neg (fun hh : k = k' => hne hh.symm)]
    | cons p t ih =>
      rw [List.cons_append, dictGet?_cons, dictGet?_cons]
      by_cases hk' : p.1 = k'
      · rw [if_pos hk', if_pos hk']
      · rw [if_neg hk', if_neg hk']
        exact ih

/-! ### Python slicing and `range` -/

/-- Python `l[:k]` for an `int` index `k`: a nonnegative `k` keeps the first
`k` elements, a negative `k` removes the last `|k|` elements (clamped). -/
def pySlice (l : List α) (k : Int) : List α :=
  l.take (if 0 ≤ k then k.toNat else l.length - (-k).toNat)

/-- Python `range(0, stop, step)` for a positive `step` (a zero `step` raises
in Python and is unreachable from a validly constructed splitter; the model
returns `[]` there). -/
def pyRange0 (stop step : Nat) : List Nat :=
  if step = 0 then [] else (List.range ((stop + step - 1) / step)).map (· * step)

/-! ### Decimal rendering of numbers (Python `str` and f-strings) -/

/-- The decimal digit character for `d < 10`. -/
def digitChar (d : Nat) : Char := Char.ofNat (48 + d)

/-- Accumulator-style decimal rendering, as in Python `str(n)`. -/
def natReprCore (n : Nat) (acc : List Char) : List Char :=
  if _h : n < 10 then digitChar n :: acc
  else natReprCore (n / 10) (digitChar (n % 10) :: acc)
termination_by n
decreasing_by simp_wf; omega

theorem natReprCore_eq (n : Nat) (acc : List Char) :
    natReprCore n acc =
      if n < 10 then digitChar n :: acc
      else natReprCore (n / 10) (digitChar (n % 10) :: acc) := by
  conv_lhs => rw [natReprCore]
  by_cases h : n < 10 <;> simp [h]

/-- Decimal rendering of a natural number, as interpolated by f-strings. -/
def natRepr (n : Nat) : String := ⟨natReprCore n []⟩

/-- Decimal rendering of an integer. -/
def intRepr (n : Int) : String :=
  if n < 0 then "-" ++ natRepr (-n).toNat else natRepr n.toNat

theorem natReprCore_append (n : Nat) : ∀ acc, natReprCore n acc = natReprCore n [] ++ acc := by
  induction n using Nat.strong_induction_on with
  | _ n ih =>
    intro acc
    by_cases h : n < 10
    · rw [natReprCore_eq n acc, natReprCore_eq n []]
      simp [h]
    · rw [natReprCore_eq n acc, natReprCore_eq n []]
      rw [if_neg h, if_neg h]
      rw [ih (n / 10) (by omega) (digitChar (n % 10) :: acc),
        ih (n / 10) (by omega) (digitChar (n % 10) :: [])]
      simp

theorem natReprCore_ne_nil (n : Nat) : natReprCore n [] ≠ [] := by
  rw [natReprCore_eq]
  by_cases h : n < 10
  · simp [h]
  · rw [if_neg h, natReprCore_append]
    simp

theorem digitChar_inj : ∀ m, m < 10 → ∀ n, n < 10 → digitChar m = digitChar n → m = n := by
  decide

theorem natReprCore_inj : ∀ m n : Nat, natReprCore m [] = natReprCore n [] → m = n := by
  intro m
  induction m using Nat.strong_induction_on with
  | _ m ih =>
    intro n h
    rw [natReprCore_eq m, natReprCore_eq n] at h
    by_cases hm : m < 10 <;> by_cases hn : n < 10
    · rw [if_pos hm, if_pos hn] at h
      injection h with h1 _
      exact digitChar_inj m hm n hn h1
    · rw [if_pos hm, if_neg hn, natReprCore_append] at h
      have hl := congrArg List.length h
      simp only [List.length_cons, List.length_nil, List.length_append] at hl
      have h0 : (natReprCore (n / 10) []).length = 0 := by omega
      exact absurd (List.length_eq_zero.mp h0) (natReprCore_ne_nil _)
    · rw [if_neg hm, if_pos hn, natReprCore_append] at h
      have hl := congrArg List.length h
      simp only [List.length_cons, List.length_nil, List.length_append] at hl
      have h0 : (natReprCore (m / 10) []).length = 0 := by omega
      exact absurd (List.length_eq_zero.mp h0) (natReprCore_ne_nil _)
    · rw [if_neg hm, if_neg hn,
        natReprCore_append (m / 10) (digitChar (m % 10) :: []),
        natReprCore_append (n / 10) (digitChar (n % 10) :: [])] at h
      have h2 := List.append_inj' h (by simp)
      have hdiv : m / 10 = n / 10 := ih (m / 10) (by omega) (n / 10) h2.1
      have hmod : m % 10 = n % 10 := by
        have h3 := h2.2
        injection h3 with h4 _
        exact digitChar_inj _ (by omega) _ (by omega) h4
      omega

theorem natRepr_inj {m n : Nat} (h : natRepr m = natRepr n) : m = n := by
  apply natReprCore_inj
  have h2 : (natRepr m).data = (natRepr n).data := congrArg String.data h
  simpa [natRepr] using h2

/-! ### numpy-level numerics (`vectordatabase.py` lines 8-23) -/

/-- A vector (`np.array` of floats), modelled as a list of rationals. -/
abbrev Vec := List ℚ

/-- `np.dot`. -/
def dotProduct (a b : Vec) : ℚ := (List.zipWith (· * ·) a b).sum

/-- The square root used inside `np.linalg.norm`, modelled on `ℚ`; exact on
perfect squares (the only points where this file evaluates it). -/
def npSqrt (q : ℚ) : ℚ := (Int.sqrt q.num : ℚ) / (Nat.sqrt q.den : ℚ)

/-- `np.linalg.norm(v)`. -/
def npNorm (a : Vec) : ℚ := npSqrt (dotProduct a a)

/-- `cosine_similarity` (source lines 8-13): `dot(a,b) / (norm(a) * norm(b))`. -/
def cosine_similarity (vector_a vector_b : Vec) : ℚ :=
  dotProduct vector_a vector_b / (npNorm vector_a * npNorm vector_b)

/-- `euclidean_distance` (source lines 16-18): `norm(a - b)`. -/
def euclidean_distance (vector_a vector_b : Vec) : ℚ :=
  npNorm (List.zipWith (· - ·) vector_a vector_b)

/-- `manhattan_distance` (source lines 21-23): `sum(abs(a - b))`. -/
def manhattan_distance (vector_a vector_b : Vec) : ℚ :=
  (List.zipWith (fun x y => |x - y|) vector_a vector_b).sum

/-! ### Metadata model (`text_utils.py` DocumentMetadata values as dicts) -/

/-- The universe of metadata dictionary values touched by the verified code
paths: strings, integers and Python `None`. -/
inductive MetaVal where
  | null
  | str (s : String)
  | int (n : Int)
deriving DecidableEq

/-- Rendering of a metadata value inside an f-string (`str(value)`). -/
def MetaVal.render : MetaVal → String
  | .null => "None"
  | .str s => s
  | .int n => intRepr n

/-- A metadata dictionary. -/
abbrev Metadata := List (String × MetaVal)

/-! ### `VectorDatabase` state (`vectordatabase.py` lines 26-51) -/

/-- `VectorWithMetadata` (source lines 26-30). -/
structure VectorWithMetadata where
  vector : Vec
  metadata : Metadata
deriving DecidableEq

/-- The mutable state of a `VectorDatabase` (source lines 34-38).  The
`embedding_model` collaborator is not part of the state: it is passed as a
function wherever a method calls it.  `distance_functions` (lines 41-45) is a
fixed dictionary, modelled by the module-level function of the same name. -/
structure VectorDatabase where
  vectors : List (String × VectorWithMetadata)
  text_to_key : List (String × String)
  chunk_counter : Nat
deriving DecidableEq

/-- `insert` (source lines 47-51); `metadata=None` defaults to `{}` at the
call site, so the model takes the dictionary directly. -/
def VectorDatabase.insert (db : VectorDatabase) (key : String) (vector : Vec)
    (metadata : Metadata) : VectorDatabase :=
  { db with vectors := dictInsert db.vectors key ⟨vector, metadata⟩ }

/-- The `distance_measure` argument of `search`: omitted (`None`), a string
name, or a caller-supplied scoring function. -/
inductive DistanceMeasure where
  | null
  | str (s : String)
  | func (f : Vec → Vec → ℚ)

/-- The `self.distance_functions` dictionary (source lines 41-45). -/
def distance_functions (s : String) : Option (Vec → Vec → ℚ) :=
  if s = "cosine" then some cosine_similarity
  else if s = "euclidean" then some euclidean_distance
  else if s = "manhattan" then some manhattan_distance
  else Option.none

/-- Resolution of the scoring function (source lines 62-67): `None` and
unknown string names fall back to `cosine_similarity`; a callable is used
directly. -/
def resolveDistanceFunc : DistanceMeasure → (Vec → Vec → ℚ)
  | .null => cosine_similarity
  | .str s => (distance_functions s).getD cosine_similarity
  | .func f => f

/-- The `reverse` flag of the final sort (source line 80):
`distance_measure in ['cosine', None] or (isinstance(distance_measure, str)
and distance_measure == 'cosine')`.  A callable compares unequal to both
`'cosine'` and `None` and is not a `str`, so it yields `false`; an unknown
string name also yields `false`. -/
def reverseFlag : DistanceMeasure → Bool
  | .null => true
  | .str s => decide (s = "cosine")
  | .func _ => false

/-- The filter test of the candidate loop (source lines 72-73): a record is
kept unless the filter is truthy (`Some` of a non-empty string) and the
metadata's `file_type` value differs from the filter string. -/
def keepRecord (file_type_filter : Option String) (md : Metadata) : Bool :=
  match file_type_filter with
  | Option.none => true
  | some s =>
    if s = "" then true else decide (dictGet? md "file_type" = some (MetaVal.str s))

/-- One entry of the scored candidate list: `(key, score, metadata)`. -/
abbrev SearchEntry := String × ℚ × Metadata

/-- Ascending comparison on scores, `key=lambda x: x[1]` with `reverse=False`. -/
def scoreLe (a b : SearchEntry) : Prop := a.2.1 ≤ b.2.1

/-- Descending comparison on scores, `key=lambda x: x[1]` with `reverse=True`. -/
def scoreGe (a b : SearchEntry) : Prop := b.2.1 ≤ a.2.1

instance : DecidableRel scoreLe := fun a b => inferInstanceAs (Decidable (a.2.1 ≤ b.2.1))

instance : DecidableRel scoreGe := fun a b => inferInstanceAs (Decidable (b.2.1 ≤ a.2.1))

instance : IsTotal SearchEntry scoreLe := ⟨fun a b => le_total a.2.1 b.2.1⟩

instance : IsTotal SearchEntry scoreGe := ⟨fun a b => le_total b.2.1 a.2.1⟩

instance : IsTrans SearchEntry scoreLe := ⟨fun _ _ _ h1 h2 => le_trans h1 h2⟩

instance : IsTrans SearchEntry scoreGe := ⟨fun _ _ _ h1 h2 => le_trans h2 h1⟩

/-- Python's stable `sorted(scores, key=lambda x: x[1], reverse=reverse)`,
modelled by a stable insertion sort (the spec guarantees nothing about tie
order). -/
def pySort (reverse : Bool) (l : List SearchEntry) : List SearchEntry :=
  if reverse then l.insertionSort scoreGe else l.insertionSort scoreLe

/-- The scored candidate list of `search` (source lines 69-76): a linear scan
over `self.vectors.items()` in insertion order, skipping filtered records. -/
def VectorDatabase.searchScored (db : VectorDatabase) (query_vector : Vec)
    (distance_measure : DistanceMeasure) (file_type_filter : Option String) :
    List SearchEntry :=
  db.vectors.filterMap fun p =>
    if keepRecord file_type_filter p.2.metadata then
      some (p.1, resolveDistanceFunc distance_measure query_vector p.2.vector, p.2.metadata)
    else Option.none

/-- The fully sorted candidate list of `search` (source line 81, before the
final `[:k]` slice). -/
def VectorDatabase.searchSorted (db : VectorDatabase) (query_vector : Vec)
    (distance_measure : DistanceMeasure) (file_type_filter : Option String) :
    List SearchEntry :=
  pySort (reverseFlag distance_measure)
    (db.searchScored query_vector distance_measure file_type_filter)

/-- `search` (source lines 53-81). -/
def VectorDatabase.search (db : VectorDatabase) (query_vector : Vec) (k : Int)
    (distance_measure : DistanceMeasure) (file_type_filter : Option String) :
    List SearchEntry :=
  pySlice (db.searchSorted query_vector distance_measure file_type_filter) k

/-- The reverse text lookup of `search_by_text` (source lines 99-108): the
first text mapping to `key` in `self.text_to_key`, falling back to the key
itself. -/
def VectorDatabase.keyToText (db : VectorDatabase) (key : String) : String :=
  match db.text_to_key.find? fun p => decide (p.2 = key) with
  | some p => p.1
  | Option.none => key

/-- The `(text, score, metadata)` result list of `search_by_text` (source
lines 94-110), given the already-embedded query vector; the surrounding
output shaping (lines 112-117) returns exactly this list on the
`include_metadata=True` path that `EnhancedRAGPipeline.query` uses. -/
def VectorDatabase.search_by_text_results (db : VectorDatabase) (query_vector : Vec)
    (k : Int) (distance_measure : DistanceMeasure) (file_type_filter : Option String) :
    List (String × ℚ × Metadata) :=
  (db.search query_vector k distance_measure file_type_filter).map fun r =>
    (db.keyToText r.1, r.2.1, r.2.2)

/-- `retrieve_from_key` (source lines 119-121): `self.vectors.get(key, None)`
(which, unlike `self.vectors[key]`, never inserts a default entry into the
defaultdict). -/
def VectorDatabase.retrieve_from_key (db : VectorDatabase) (key : String) : Option Vec :=
  (dictGet? db.vectors key).map fun vwm => vwm.vector

/-! ### Batched ingestion (`abuild_from_list`, source lines 123-148) -/

/-- The store-scoped key `f"chunk_{n}"` (source line 129). -/
def chunkKey (n : Nat) : String := "chunk_" ++ natRepr n

/-- The per-chunk metadata of iteration `i` (source lines 132-140):
`{}` unless `metadata_list` is truthy (non-`None` and non-empty) and `i` is
in range, in which case the `i`-th entry (a dict, after `to_dict()` where
applicable) is taken and its `chunk_index` is set to `i`.  The model uses
value semantics for the metadata dicts. -/
def chunkMetadata (metadata_list : Option (List Metadata)) (i : Nat) : Metadata :=
  match metadata_list with
  | Option.none => []
  | some ml =>
    if ml = [] then []
    else if i < ml.length then dictInsert (ml.getD i []) "chunk_index" (MetaVal.int i)
    else []

/-- One iteration of the `abuild_from_list` loop (source lines 127-146):
allocate the key from `chunk_counter`, bump the counter, build the chunk
metadata, register the text→key reverse mapping, and insert the record. -/
def abuildStep (metadata_list : Option (List Metadata)) (i : Nat)
    (te : String × Vec) (db : VectorDatabase) : VectorDatabase :=
  let chunk_key := chunkKey db.chunk_counter
  { vectors := dictInsert db.vectors chunk_key ⟨te.2, chunkMetadata metadata_list i⟩
    text_to_key := dictInsert db.text_to_key te.1 chunk_key
    chunk_counter := db.chunk_counter + 1 }

/-- The `for i, (text, embedding) in enumerate(zip(...))` loop of
`abuild_from_list`. -/
def abuildLoop (metadata_list : Option (List Metadata)) :
    Nat → List (String × Vec) → VectorDatabase → VectorDatabase
  | _, [], db => db
  | i, te :: rest, db =>
    abuildLoop metadata_list (i + 1) rest (abuildStep metadata_list i te db)

/-- `abuild_from_list` (source lines 123-148); the batched embedding call to
the collaborator is modelled by the `embeddings` argument. -/
def VectorDatabase.abuild_from_list (db : VectorDatabase) (list_of_text : List String)
    (embeddings : List Vec) (metadata_list : Option (List Metadata)) : VectorDatabase :=
  abuildLoop metadata_list 0 (list_of_text.zip embeddings) db

/-- Every key in the store was allocated below the current counter.  This is
the store invariant under which key allocation is fresh; it holds for a new
store and is preserved by `abuild_from_list`. -/
def KeysBounded (db : VectorDatabase) : Prop :=
  ∀ p ∈ db.vectors, ∃ j < db.chunk_counter, p.1 = chunkKey j

/-! ### `get_database_stats` (source lines 150-163) -/

/-- The statistics dictionary returned by `get_database_stats`. -/
structure DBStats where
  total_vectors : Nat
  file_types : List (MetaVal × Nat)
  available_distance_metrics : List String
deriving DecidableEq

/-- `file_types[file_type] += 1` on a `defaultdict(int)`. -/
def countsInc (l : List (MetaVal × Nat)) (k : MetaVal) : List (MetaVal × Nat) :=
  if dictHas l k then l.map fun p => if p.1 = k then (p.1, p.2 + 1) else p
  else l ++ [(k, 1)]

/-- `get_database_stats` (source lines 150-163). -/
def VectorDatabase.get_database_stats (db : VectorDatabase) : DBStats :=
  { total_vectors := db.vectors.length
    file_types := db.vectors.foldl
      (fun acc p => countsInc acc (dictGetD p.2.metadata "file_type" (MetaVal.str "unknown"))) []
    available_distance_metrics := ["cosine", "euclidean", "manhattan"] }

/-! ### State-passing wrappers for the read-only operations

The Python methods receive `self`; the wrappers below return the store state
the method leaves behind.  The bodies of `search`, `retrieve_from_key` and
`get_database_stats` contain no assignment to any `self` field, and
`retrieve_from_key` reads the defaultdict with `.get` (which never inserts),
so each wrapper returns the incoming state. -/

/-- `search` as a state transformer. -/
def VectorDatabase.searchOp (db : VectorDatabase) (query_vector : Vec) (k : Int)
    (distance_measure : DistanceMeasure) (file_type_filter : Option String) :
    List SearchEntry × VectorDatabase :=
  (db.search query_vector k distance_measure file_type_filter, db)

/-- `retrieve_from_key` as a state transformer. -/
def VectorDatabase.retrieveFromKeyOp (db : VectorDatabase) (key : String) :
    Option Vec × VectorDatabase :=
  (db.retrieve_from_key key, db)

/-- `get_database_stats` as a state transformer. -/
def VectorDatabase.getDatabaseStatsOp (db : VectorDatabase) : DBStats × VectorDatabase :=
  (db.get_database_stats, db)

/-! ### `CharacterTextSplitter` (`text_utils.py` lines 155-178) -/

/-- The splitter's configuration. -/
structure CharacterTextSplitter where
  chunk_size : Int
  chunk_overlap : Int
deriving DecidableEq

/-- The constructor (source lines 156-166): `assert chunk_size >
chunk_overlap` raises on failure (the spec's ConfigurationError), modelled by
`Except.error` carrying the assertion message. -/
def CharacterTextSplitter.init (chunk_size chunk_overlap : Int) :
    Except String CharacterTextSplitter :=
  if chunk_size > chunk_overlap then Except.ok ⟨chunk_size, chunk_overlap⟩
  else Except.error "Chunk size must be greater than chunk overlap"

/-- `split` (source lines 168-172): windows `text[i : i + chunk_size]` for
`i in range(0, len(text), chunk_size - chunk_overlap)`.  The text is a Python
string modelled as its character list. -/
def CharacterTextSplitter.split (sp : CharacterTextSplitter) (text : List Char) :
    List (List Char) :=
  (pyRange0 text.length (sp.chunk_size - sp.chunk_overlap).toNat).map
    fun i => (text.drop i).take sp.chunk_size.toNat

/-- `split_texts` (source lines 174-178). -/
def CharacterTextSplitter.split_texts (sp : CharacterTextSplitter)
    (texts : List (List Char)) : List (List Char) :=
  texts.foldl (fun chunks text => chunks ++ sp.split text) []

/-! ### `EnhancedRAGPipeline` (`enhanced_rag_pipeline.py`) -/

/-- A chat message `{role, content}`. -/
structure Message where
  role : String
  content : String
deriving DecidableEq

/-- The `self.stats` counters (source lines 38-45). -/
structure PipelineStats where
  documents_processed : Nat
  chunks_created : Nat
  queries_processed : Nat
  txt_files_processed : Nat
  pdf_files_processed : Nat
  youtube_videos_processed : Nat
deriving DecidableEq

/-- The pipeline state (source lines 24-45).  The embedding and chat
collaborators are modelled as fallible functions (`get_embedding` inside
`search_by_text`, and `chat_model.run`). -/
structure EnhancedRAGPipeline where
  distance_metric : String
  vector_db : VectorDatabase
  stats : PipelineStats
  embed : String → Except String Vec
  chatRun : List Message → ℚ → Except String String

/-- The result dictionary of `query` (source lines 186-198): either the
success dictionary or `{'success': False, 'error': ...}`. -/
inductive QueryResult where
  | ok (response : String) (context : List String) (relevance_scores : List String)
      (sources : List String) (full_results : Option (List (String × ℚ × Metadata)))
  | err (error : String)
deriving DecidableEq

/-- Zero-padding of a fractional part to three digits. -/
def pad3 (n : Nat) : String :=
  if n < 10 then "00" ++ natRepr n else if n < 100 then "0" ++ natRepr n else natRepr n

/-- Python `f"{score:.3f}"` (source line 165), modelled by rounding the
rational score to three decimal places (float rounding approximated by
`round`). -/
def formatScore3 (q : ℚ) : String :=
  let m : Int := round (q * 1000)
  let sign := if m < 0 then "-" else ""
  sign ++ natRepr (m.natAbs / 1000) ++ "." ++ pad3 (m.natAbs % 1000)

/-- The per-result source label (source lines 166-169):
`f"{md.get('filename','Unknown')}_chunk_{md.get('chunk_index','N/A')}
({md.get('file_type','N/A')})"`, or `"Unknown Source"` for a falsy (empty)
metadata dict. -/
def sourceLabel (md : Metadata) : String :=
  if md = [] then "Unknown Source"
  else
    (dictGetD md "filename" (MetaVal.str "Unknown")).render ++ "_chunk_" ++
      (dictGetD md "chunk_index" (MetaVal.str "N/A")).render ++ " (" ++
      (dictGetD md "file_type" (MetaVal.str "N/A")).render ++ ")"

/-- The `try` block of `query` (source lines 142-195): resolve the metric
name (Python `or`, under which an empty string is falsy), embed the query
(inside `search_by_text`), search with `include_metadata=True`, assemble the
context, scores and source labels, build the two messages, and call the chat
collaborator with temperature 0.  Any collaborator failure propagates as
`Except.error`, to be caught by `query`'s `except` clause. -/
def EnhancedRAGPipeline.queryBody (p : EnhancedRAGPipeline) (user_query : String)
    (k : Int) (distance_metric : Option String) (response_style : String)
    (include_metadata : Bool) (file_type_filter : Option String) :
    Except String QueryResult := do
  let actual_distance_metric :=
    match distance_metric with
    | some s => if s = "" then p.distance_metric else s
    | Option.none => p.distance_metric
  let query_vector ← p.embed user_query
  let relevant_results := p.vector_db.search_by_text_results query_vector k
    (DistanceMeasure.str actual_distance_metric) file_type_filter
  let context_list := relevant_results.map fun r => r.1
  let relevance_scores := relevant_results.map fun r => formatScore3 r.2.1
  let sources := relevant_results.map fun r => sourceLabel r.2.2
  let context := String.intercalate "\n\n" context_list
  let system_message : Message :=
    ⟨"system",
      "You are a helpful assistant that answers questions based strictly on the provided context. Keep responses "
        ++ response_style
        ++ ". If the context doesn't contain relevant information, respond with 'I don't know'."⟩
  let user_message : Message := ⟨"user", "Context: " ++ context ++ "\n\nQuestion: " ++ user_query⟩
  let response ← p.chatRun [system_message, user_message] 0
  pure (QueryResult.ok response context_list relevance_scores sources
    (if include_metadata then some relevant_results else Option.none))

/-- `query` (source lines 137-198): increment the queries-processed counter
unconditionally (line 140, before the `try`), then run the body; an exception
anywhere in the body is converted to `{'success': False, 'error': ...}`. -/
def EnhancedRAGPipeline.query (p : EnhancedRAGPipeline) (user_query : String) (k : Int)
    (distance_metric : Option String) (response_style : String)
    (include_metadata : Bool) (file_type_filter : Option String) :
    QueryResult × EnhancedRAGPipeline :=
  let p1 := { p with stats := { p.stats with
    queries_processed := p.stats.queries_processed + 1 } }
  match p1.queryBody user_query k distance_metric response_style include_metadata
      file_type_filter with
  | Except.ok r => (r, p1)
  | Except.error e => (QueryResult.err e, p1)

/-! ### Helper lemmas about `search` -/

theorem length_pySort (reverse : Bool) (l : List SearchEntry) :
    (pySort reverse l).length = l.length := by
  cases reverse <;> simp [pySort]

theorem length_searchSorted (db : VectorDatabase) (q : Vec) (dm : DistanceMeasure)
    (filt : Option String) :
    (db.searchSorted q dm filt).length = (db.searchScored q dm filt).length :=
  length_pySort _ _

theorem mem_searchSorted {db : VectorDatabase} {q : Vec} {dm : DistanceMeasure}
    {filt : Option String} {e : SearchEntry} (h : e ∈ db.searchSorted q dm filt) :
    e ∈ db.searchScored q dm filt := by
  rw [VectorDatabase.searchSorted, pySort] at h
  cases hr : reverseFlag dm <;> rw [hr] at h <;> simpa using h

theorem sorted_pySort_true (l : List SearchEntry) :
    List.Sorted scoreGe (pySort true l) := by
  rw [pySort, if_pos rfl]
  exact List.sorted_insertionSort scoreGe l

theorem sorted_pySort_false (l : List SearchEntry) :
    List.Sorted scoreLe (pySort false l) := by
  rw [pySort, if_neg (by simp)]
  exact List.sorted_insertionSort scoreLe l

theorem search_eq_take_searchSorted (db : VectorDatabase) (q : Vec) (k : Int)
    (dm : DistanceMeasure) (filt : Option String) :
    db.search q k dm filt = (db.searchSorted q dm filt).take
      (if 0 ≤ k then k.toNat else (db.searchSorted q dm filt).length - (-k).toNat) :=
  rfl

theorem search_scores_sorted_of_reverse {dm : DistanceMeasure}
    (h : reverseFlag dm = true) (db : VectorDatabase) (q : Vec) (k : Int)
    (filt : Option String) :
    List.Sorted (· ≥ ·) ((db.search q k dm filt).map fun e => e.2.1) := by
  have hs : List.Sorted scoreGe (db.searchSorted q dm filt) := by
    rw [VectorDatabase.searchSorted, h]
    exact sorted_pySort_true _
  rw [search_eq_take_searchSorted]
  exact List.pairwise_map.mpr ((hs.sublist (List.take_sublist _ _)).imp fun hab => hab)

theorem search_scores_sorted_of_not_reverse {dm : DistanceMeasure}
    (h : reverseFlag dm = false) (db : VectorDatabase) (q : Vec) (k : Int)
    (filt : Option String) :
    List.Sorted (· ≤ ·) ((db.search q k dm filt).map fun e => e.2.1) := by
  have hs : List.Sorted scoreLe (db.searchSorted q dm filt) := by
    rw [VectorDatabase.searchSorted, h]
    exact sorted_pySort_false _
  rw [search_eq_take_searchSorted]
  exact List.pairwise_map.mpr ((hs.sublist (List.take_sublist _ _)).imp fun hab => hab)

theorem mem_search {db : VectorDatabase} {q : Vec} {k : Int} {dm : DistanceMeasure}
    {filt : Option String} {e : SearchEntry} (h : e ∈ db.search q k dm filt) :
    ∃ p ∈ db.vectors, keepRecord filt p.2.metadata = true ∧
      e = (p.1, resolveDistanceFunc dm q p.2.vector, p.2.metadata) := by
  rw [search_eq_take_searchSorted] at h
  have h2 := mem_searchSorted (List.take_subset _ _ h)
  rw [VectorDatabase.searchScored, List.mem_filterMap] at h2
  obtain ⟨p, hp, heq⟩ := h2
  by_cases hkeep : keepRecord filt p.2.metadata
  · rw [if_pos hkeep] at heq
    exact ⟨p, hp, hkeep, (Option.some.injEq .. ▸ heq).symm⟩
  · rw [if_neg hkeep] at heq
    exact absurd heq (by simp)

/-!
### C6: sort direction by metric name

Claim C6 of the specification: with metric name `"cosine"` (or the metric
omitted) the returned scores are non-increasing; with `"euclidean"` or
`"manhattan"` they are non-decreasing.
-/

/-- C6: for every store state, query vector, `k` and filter, `search` with
the metric omitted or named `"cosine"` returns scores sorted non-increasing,
and with `"euclidean"` or `"manhattan"` sorted non-decreasing. -/
theorem c6_sort_direction_by_name (db : VectorDatabase) (q : Vec) (k : Int)
    (filt : Option String) :
    List.Sorted (· ≥ ·)
        ((db.search q k DistanceMeasure.null filt).map fun e => e.2.1) ∧
      List.Sorted (· ≥ ·)
        ((db.search q k (DistanceMeasure.str "cosine") filt).map fun e => e.2.1) ∧
      List.Sorted (· ≤ ·)
        ((db.search q k (DistanceMeasure.str "euclidean") filt).map fun e => e.2.1) ∧
      List.Sorted (· ≤ ·)
        ((db.search q k (DistanceMeasure.str "manhattan") filt).map fun e => e.2.1) :=
  ⟨search_scores_sorted_of_reverse (by rfl) db q k filt,
    search_scores_sorted_of_reverse (by simp [reverseFlag]) db q k filt,
    search_scores_sorted_of_not_reverse (by simp [reverseFlag]) db q k filt,
    search_scores_sorted_of_not_reverse (by simp [reverseFlag]) db q k filt⟩

/-!
### C5: result count bound and metadata filtering
-/

/-- C5: for every store state, query vector, metric and non-empty file-type
filter, `search` returns at most `k` results (for the usual nonnegative `k`)
and every returned result's metadata has `file_type` equal to the filter
value; with no filter, at most `k` results are returned and each result is
drawn from the store. -/
theorem c5_filter_and_k_bound (db : VectorDatabase) (q : Vec) (k : Int)
    (dm : DistanceMeasure) (s : String) (hs : s ≠ "") (hk : 0 ≤ k) :
    ((db.search q k dm (some s)).length ≤ k.toNat ∧
        ∀ e ∈ db.search q k dm (some s),
          dictGet? e.2.2 "file_type" = some (MetaVal.str s)) ∧
      ((db.search q k dm Option.none).length ≤ k.toNat ∧
        ∀ e ∈ db.search q k dm Option.none,
          ∃ vwm, (e.1, vwm) ∈ db.vectors ∧ vwm.metadata = e.2.2) := by
  refine ⟨⟨?_, ?_⟩, ?_, ?_⟩
  · rw [search_eq_take_searchSorted, if_pos hk]
    exact List.length_take_le _ _
  · intro e he
    obtain ⟨p, _, hkeep, hep⟩ := mem_search he
    rw [keepRecord, if_neg hs, decide_eq_true_eq] at hkeep
    rw [hep]
    exact hkeep
  · rw [search_eq_take_searchSorted, if_pos hk]
    exact List.length_take_le _ _
  · intro e he
    obtain ⟨p, hp, _, hep⟩ := mem_search he
    exact ⟨p.2, by rw [hep]; exact hp, by rw [hep]⟩

/-- The concrete store used by the C5 witness. -/
def dbC5 : VectorDatabase :=
  ⟨[("chunk_0", ⟨[1], [("file_type", MetaVal.str "txt")]⟩)], [], 1⟩

/-- Witness for C5 at a concrete store, filter `"txt"` and `k = 1`. -/
theorem c5_filter_and_k_bound_witness :
    (("txt" : String) ≠ "" ∧ (0 : Int) ≤ 1) ∧
      (((dbC5.search [1] 1 DistanceMeasure.null (some "txt")).length ≤ (1 : Int).toNat ∧
        ∀ e ∈ dbC5.search [1] 1 DistanceMeasure.null (some "txt"),
          dictGet? e.2.2 "file_type" = some (MetaVal.str "txt")) ∧
      ((dbC5.search [1] 1 DistanceMeasure.null Option.none).length ≤ (1 : Int).toNat ∧
        ∀ e ∈ dbC5.search [1] 1 DistanceMeasure.null Option.none,
          ∃ vwm, (e.1, vwm) ∈ dbC5.vectors ∧ vwm.metadata = e.2.2)) :=
  ⟨⟨by simp, by norm_num⟩,
    c5_filter_and_k_bound dbC5 [1] 1 DistanceMeasure.null "txt" (by simp) (by norm_num)⟩

/-!
### C10: `k = 0` and negative `k`
-/

/-- C10: `search` with `k = 0` returns the empty list, and with a negative
`k` it returns the sorted candidate list with its last `|k|` entries removed;
in particular `k = -1` on `n` matching candidates yields `n - 1` results. -/
theorem c10_k_zero_and_negative (db : VectorDatabase) (q : Vec)
    (dm : DistanceMeasure) (filt : Option String) :
    db.search q 0 dm filt = [] ∧
      (∀ k : Int, k < 0 → db.search q k dm filt = (db.searchSorted q dm filt).take
        ((db.searchSorted q dm filt).length - (-k).toNat)) ∧
      (db.search q (-1) dm filt).length = (db.searchScored q dm filt).length - 1 := by
  refine ⟨?_, ?_, ?_⟩
  · rw [search_eq_take_searchSorted, if_pos le_rfl]
    simp
  · intro k hk
    rw [search_eq_take_searchSorted, if_neg (by omega)]
  · rw [search_eq_take_searchSorted, if_neg (by omega), List.length_take,
      length_searchSorted]
    simp only [Int.neg_neg, Int.toNat_one]
    omega

/-- The concrete store used by the C10 witness. -/
def dbC10 : VectorDatabase :=
  ⟨[("a", ⟨[1], []⟩), ("b", ⟨[2], []⟩)], [], 0⟩

/-- Witness for C10 at a concrete two-record store and `k = -1`. -/
theorem c10_k_zero_and_negative_witness :
    ((-1 : Int) < 0) ∧
      dbC10.search [1] (-1) DistanceMeasure.null Option.none =
        (dbC10.searchSorted [1] DistanceMeasure.null Option.none).take
          ((dbC10.searchSorted [1] DistanceMeasure.null Option.none).length -
            (-(-1 : Int)).toNat) :=
  ⟨by norm_num,
    (c10_k_zero_and_negative dbC10 [1] DistanceMeasure.null Option.none).2.1 (-1)
      (by norm_num)⟩

/-! ### Evaluation helper for concrete square roots -/

theorem npSqrt_eval {q : ℚ} (r : ℕ) (hnum : q.num = (r : ℤ) * r) (hden : q.den = 1) :
    npSqrt q = r := by
  rw [npSqrt, hnum, hden, Int.sqrt_eq, Nat.sqrt_one]
  simp

/-!
### C1: caller-supplied scoring functions

The specification asserts that a caller-supplied scoring function is treated
exactly like `"cosine"` and sorted descending.  In the code, the `reverse`
flag on line 80 compares the callable against the string `'cosine'` and
against `None` (both unequal) and checks `isinstance(..., str)` (false), so a
callable always sorts ascending, like the named distance metrics.
-/

/-- The concrete store used by the C1 counterexample. -/
def dbC1 : VectorDatabase :=
  ⟨[("a", ⟨[1], []⟩), ("b", ⟨[2], []⟩)], [], 0⟩

/-- C1 counterexample: with the callable `dotProduct` as scoring function,
the store `{a ↦ [1], b ↦ [2]}` and query `[1]`, the scores come back as
`[1, 2]` — ascending, not descending as the claim states. -/
theorem c1_counterexample :
    ¬ List.Sorted (· ≥ ·)
      ((dbC1.search [1] 2 (DistanceMeasure.func dotProduct) Option.none).map
        fun e => e.2.1) := by
  have heval : dbC1.search [1] 2 (DistanceMeasure.func dotProduct) Option.none =
      [("a", 1, []), ("b", 2, [])] := by
    rw [VectorDatabase.search, VectorDatabase.searchSorted, VectorDatabase.searchScored,
      show reverseFlag (DistanceMeasure.func dotProduct) = false from rfl,
      show resolveDistanceFunc (DistanceMeasure.func dotProduct) = dotProduct from rfl]
    simp only [dbC1, List.filterMap, keepRecord, pySort, Bool.false_eq_true, if_false,
      List.insertionSort, List.orderedInsert, scoreLe, pySlice]
    norm_num [dotProduct]
  rw [heval]
  intro h
  have h2 := (List.sorted_cons.mp h).1 2 (by simp)
  norm_num at h2

/-- C1 amended: a caller-supplied scoring function sorts ascending (scores
non-decreasing), exactly as the named distance metrics `"euclidean"` and
`"manhattan"` do — not descending as `"cosine"` does. -/
theorem c1_amended_callable_sorts_ascending (db : VectorDatabase) (q : Vec) (k : Int)
    (f : Vec → Vec → ℚ) (filt : Option String) :
    List.Sorted (· ≤ ·)
      ((db.search q k (DistanceMeasure.func f) filt).map fun e => e.2.1) :=
  search_scores_sorted_of_not_reverse (by rfl) db q k filt

/-!
### C2: unknown metric names

The specification asserts that an unknown metric name behaves exactly like
`"cosine"` (same scoring function, same descending order).  In the code the
scoring function indeed falls back to `cosine_similarity` (line 65), but the
`reverse` flag on line 80 is `False` for any string other than `'cosine'`,
so the order is ascending, not descending.
-/

/-- The concrete store used by the C2 counterexample:
`{a ↦ [1,0], b ↦ [3,4]}` has cosine scores `1` and `3/5` against the query
`[1,0]`. -/
def dbC2 : VectorDatabase :=
  ⟨[("a", ⟨[1, 0], []⟩), ("b", ⟨[3, 4], []⟩)], [], 0⟩

theorem dbC2_cos_aa : cosine_similarity [(1 : ℚ), 0] [(1 : ℚ), 0] = 1 := by
  rw [cosine_similarity, npNorm,
    show dotProduct [(1 : ℚ), 0] [(1 : ℚ), 0] = 1 by norm_num [dotProduct],
    npSqrt_eval 1 (by norm_num) (by norm_num)]
  norm_num [dotProduct]

theorem dbC2_cos_ab : cosine_similarity [(1 : ℚ), 0] [(3 : ℚ), 4] = 3 / 5 := by
  rw [cosine_similarity, npNorm, npNorm,
    show dotProduct [(1 : ℚ), 0] [(1 : ℚ), 0] = 1 by norm_num [dotProduct],
    show dotProduct [(3 : ℚ), 4] [(3 : ℚ), 4] = 25 by norm_num [dotProduct],
    npSqrt_eval 1 (by norm_num) (by norm_num),
    npSqrt_eval 5 (by norm_num) (by norm_num)]
  norm_num [dotProduct]

theorem dbC2_search_foo : dbC2.search [1, 0] 2 (DistanceMeasure.str "foo") Option.none =
    [("b", 3 / 5, []), ("a", 1, [])] := by
  have hres : resolveDistanceFunc (DistanceMeasure.str "foo") = cosine_similarity := by
    simp [resolveDistanceFunc, distance_functions]
  have hrev : reverseFlag (DistanceMeasure.str "foo") = false := by
    simp [reverseFlag]
  rw [VectorDatabase.search, VectorDatabase.searchSorted, VectorDatabase.searchScored,
    hres, hrev]
  simp only [dbC2, List.filterMap, keepRecord, pySort, Bool.false_eq_true, if_false,
    List.insertionSort, List.orderedInsert, dbC2_cos_aa, dbC2_cos_ab, scoreLe, pySlice]
  norm_num

theorem dbC2_search_cosine :
    dbC2.search [1, 0] 2 (DistanceMeasure.str "cosine") Option.none =
      [("a", 1, []), ("b", 3 / 5, [])] := by
  have hres : resolveDistanceFunc (DistanceMeasure.str "cosine") = cosine_similarity := by
    simp [resolveDistanceFunc, distance_functions]
  have hrev : reverseFlag (DistanceMeasure.str "cosine") = true := by
    simp [reverseFlag]
  rw [VectorDatabase.search, VectorDatabase.searchSorted, VectorDatabase.searchScored,
    hres, hrev]
  simp only [dbC2, List.filterMap, keepRecord, pySort, if_true,
    List.insertionSort, List.orderedInsert, dbC2_cos_aa, dbC2_cos_ab, scoreGe, pySlice]
  norm_num

/-- C2 counterexample: on a two-record store with distinct cosine scores, the
unknown metric name `"foo"` produces the reverse of the `"cosine"` result, so
the two calls are not equal. -/
theorem c2_counterexample :
    dbC2.search [1, 0] 2 (DistanceMeasure.str "foo") Option.none ≠
      dbC2.search [1, 0] 2 (DistanceMeasure.str "cosine") Option.none := by
  rw [dbC2_search_foo, dbC2_search_cosine]
  simp

/-- C2 amended: an unknown metric name does not error and falls back to the
cosine scoring function, but it sorts ascending (as if the caller had passed
`cosine_similarity` as a callable), not descending as `"cosine"` does. -/
theorem c2_amended_unknown_name_is_ascending_cosine (db : VectorDatabase) (q : Vec)
    (k : Int) (filt : Option String) (s : String) (h1 : s ≠ "cosine")
    (h2 : s ≠ "euclidean") (h3 : s ≠ "manhattan") :
    db.search q k (DistanceMeasure.str s) filt =
        db.search q k (DistanceMeasure.func cosine_similarity) filt ∧
      List.Sorted (· ≤ ·)
        ((db.search q k (DistanceMeasure.str s) filt).map fun e => e.2.1) := by
  have hres : resolveDistanceFunc (DistanceMeasure.str s) = cosine_similarity := by
    simp [resolveDistanceFunc, distance_functions, h1, h2, h3]
  have hrev : reverseFlag (DistanceMeasure.str s) = false := by
    simp [reverseFlag, h1]
  constructor
  · rw [VectorDatabase.search, VectorDatabase.search, VectorDatabase.searchSorted,
      VectorDatabase.searchSorted, VectorDatabase.searchScored,
      VectorDatabase.searchScored, hres, hrev,
      show resolveDistanceFunc (DistanceMeasure.func cosine_similarity) =
        cosine_similarity from rfl,
      show reverseFlag (DistanceMeasure.func cosine_similarity) = false from rfl]
  · exact search_scores_sorted_of_not_reverse hrev db q k filt

/-- Witness for the amended C2 at the unknown name `"dot"`. -/
theorem c2_amended_unknown_name_is_ascending_cosine_witness :
    (("dot" : String) ≠ "cosine" ∧ ("dot" : String) ≠ "euclidean" ∧
        ("dot" : String) ≠ "manhattan") ∧
      (dbC2.search [1, 0] 2 (DistanceMeasure.str "dot") Option.none =
          dbC2.search [1, 0] 2 (DistanceMeasure.func cosine_similarity) Option.none ∧
        List.Sorted (· ≤ ·)
          ((dbC2.search [1, 0] 2 (DistanceMeasure.str "dot") Option.none).map
            fun e => e.2.1)) :=
  ⟨⟨by simp, by simp, by simp⟩,
    c2_amended_unknown_name_is_ascending_cosine dbC2 [1, 0] 2 Option.none "dot"
      (by simp) (by simp) (by simp)⟩

/-!
### C3: texts shorter than the overlap

The specification asserts that a text shorter than `chunk_overlap` yields
exactly one window.  The loop in `split` strides by
`chunk_size - chunk_overlap`, so a text longer than the stride but still
shorter than the overlap yields several windows; and an empty text yields no
window at all.  The correct single-window condition is
`0 < len(text) <= chunk_size - chunk_overlap`.
-/

/-- C3 counterexample: the splitter `(chunk_size=10, chunk_overlap=9)` is
validly constructed and `"abcde"` is shorter than the overlap `9`, yet
`split` yields five windows, not one. -/
theorem c3_counterexample :
    CharacterTextSplitter.init 10 9 = Except.ok ⟨10, 9⟩ ∧
      ("abcde".toList.length : Int) < 9 ∧
      (CharacterTextSplitter.split ⟨10, 9⟩ "abcde".toList).length = 5 ∧
      CharacterTextSplitter.split ⟨10, 9⟩ "abcde".toList ≠ ["abcde".toList] := by
  refine ⟨by rfl, by decide, by decide, by decide⟩

/-- C3 amended: for a validly constructed splitter (positive sizes,
`chunk_overlap < chunk_size`) and a non-empty text whose length is at most
the stride `chunk_size - chunk_overlap`, `split` returns exactly one window,
the whole text.  (A text merely shorter than `chunk_overlap` may produce
several windows, and the empty text produces none.) -/
theorem c3_amended_single_window (cs co : Int) (text : List Char) (hco : 0 < co)
    (hlt : co < cs) (hne : text ≠ []) (hlen : (text.length : Int) ≤ cs - co) :
    CharacterTextSplitter.split ⟨cs, co⟩ text = [text] := by
  have hproj1 : (⟨cs, co⟩ : CharacterTextSplitter).chunk_size = cs := rfl
  have hproj2 : (⟨cs, co⟩ : CharacterTextSplitter).chunk_overlap = co := rfl
  rw [CharacterTextSplitter.split, hproj1, hproj2]
  have hlen1 : 1 ≤ text.length := List.length_pos.mpr hne
  have hstep1 : 1 ≤ (cs - co).toNat := by omega
  have hlenle : text.length ≤ (cs - co).toNat := by omega
  have hrange : pyRange0 text.length (cs - co).toNat = [0] := by
    rw [pyRange0, if_neg (by omega)]
    have hdiv : (text.length + (cs - co).toNat - 1) / (cs - co).toNat = 1 :=
      Nat.div_eq_of_lt_le (by omega) (by omega)
    rw [hdiv]
    simp [List.range_succ]
  rw [hrange, List.map_cons, List.map_nil, List.drop_zero,
    List.take_of_length_le (by omega)]

/-- Witness for the amended C3: splitter `(4, 2)` on the two-character text
`"ab"` (length `2 = 4 - 2`). -/
theorem c3_amended_single_window_witness :
    ((0 : Int) < 2 ∧ (2 : Int) < 4 ∧ "ab".toList ≠ [] ∧
        ("ab".toList.length : Int) ≤ 4 - 2) ∧
      CharacterTextSplitter.split ⟨4, 2⟩ "ab".toList = ["ab".toList] :=
  ⟨⟨by norm_num, by norm_num, by decide, by decide⟩,
    c3_amended_single_window 4 2 "ab".toList (by norm_num) (by norm_num) (by decide)
      (by decide)⟩

/-!
### C8: splitter construction
-/

/-- C8: constructing a splitter with `chunk_size <= chunk_overlap` always
fails with the configuration assertion, and with `chunk_size > chunk_overlap`
it always succeeds. -/
theorem c8_init_validation (cs co : Int) :
    (cs ≤ co → CharacterTextSplitter.init cs co =
        Except.error "Chunk size must be greater than chunk overlap") ∧
      (co < cs → CharacterTextSplitter.init cs co = Except.ok ⟨cs, co⟩) := by
  constructor
  · intro h
    rw [CharacterTextSplitter.init, if_neg (by omega)]
  · intro h
    rw [CharacterTextSplitter.init, if_pos (by omega)]

/-- Witness for C8: `(3, 5)` fails and `(5, 3)` succeeds. -/
theorem c8_init_validation_witness :
    ((3 : Int) ≤ 5 ∧ (3 : Int) < 5) ∧
      CharacterTextSplitter.init 3 5 =
        Except.error "Chunk size must be greater than chunk overlap" ∧
      CharacterTextSplitter.init 5 3 = Except.ok ⟨5, 3⟩ :=
  ⟨⟨by norm_num, by norm_num⟩,
    (c8_init_validation 3 5).1 (by norm_num), (c8_init_validation 5 3).2 (by norm_num)⟩

/-!
### C4: batched ingestion assigns fresh keys and per-call chunk indices
-/

theorem chunkKey_inj {a b : Nat} (h : chunkKey a = chunkKey b) : a = b := by
  have hd := congrArg String.data h
  rw [chunkKey, chunkKey, String.data_append, String.data_append] at hd
  exact natRepr_inj (String.ext (List.append_cancel_left hd))

theorem dictGet?_append_single_ne [DecidableEq κ] (l : List (κ × α)) {k k' : κ} (v : α)
    (hne : k' ≠ k) : dictGet? (l ++ [(k, v)]) k' = dictGet? l k' := by
  induction l with
  | nil =>
    rw [List.nil_append, dictGet?_cons, if_neg (fun hh : k = k' => hne hh.symm)]
  | cons p t ih =>
    rw [List.cons_append, dictGet?_cons, dictGet?_cons]
    by_cases hk' : p.1 = k'
    · rw [if_pos hk', if_pos hk']
    · rw [if_neg hk', if_neg hk']
      exact ih

theorem fresh_chunkKey {db : VectorDatabase} (hkb : KeysBounded db) {j : Nat}
    (hj : db.chunk_counter ≤ j) : dictHas db.vectors (chunkKey j) = false := by
  by_contra hcon
  rw [Bool.not_eq_false] at hcon
  obtain ⟨p, hp, hpk⟩ := List.any_eq_true.mp hcon
  obtain ⟨i, hi, hpi⟩ := hkb p hp
  rw [decide_eq_true_eq] at hpk
  have := chunkKey_inj (hpi.symm.trans hpk)
  omega

theorem abuildStep_vectors (mdl : Option (List Metadata)) (i : Nat) (te : String × Vec)
    (db : VectorDatabase) (h : dictHas db.vectors (chunkKey db.chunk_counter) = false) :
    (abuildStep mdl i te db).vectors =
      db.vectors ++ [(chunkKey db.chunk_counter, ⟨te.2, chunkMetadata mdl i⟩)] := by
  simp only [abuildStep]
  exact dictInsert_of_not_has _ h

/-- The inductive invariant of the `abuild_from_list` loop: starting from a
store whose keys were all allocated below the counter, a run over `l` pairs
(with loop index starting at `i0`) advances the counter by `l.length`,
preserves the invariant, grows the store by exactly `l.length` records
(all keys fresh), leaves previously allocated keys untouched, and stores the
`t`-th pair under `chunkKey (counter + t)` with metadata stamped by
`chunkMetadata` at loop index `i0 + t`. -/
theorem abuildLoop_spec (mdl : Option (List Metadata)) (l : List (String × Vec)) :
    ∀ (i0 : Nat) (db : VectorDatabase), KeysBounded db →
      (abuildLoop mdl i0 l db).chunk_counter = db.chunk_counter + l.length ∧
        KeysBounded (abuildLoop mdl i0 l db) ∧
        (abuildLoop mdl i0 l db).vectors.length = db.vectors.length + l.length ∧
        (∀ j, j < db.chunk_counter →
          dictGet? (abuildLoop mdl i0 l db).vectors (chunkKey j) =
            dictGet? db.vectors (chunkKey j)) ∧
        (∀ t, (ht : t < l.length) →
          dictGet? (abuildLoop mdl i0 l db).vectors (chunkKey (db.chunk_counter + t)) =
            some ⟨(l.get ⟨t, ht⟩).2, chunkMetadata mdl (i0 + t)⟩) := by
  induction l with
  | nil =>
    intro i0 db hkb
    exact ⟨by simp [abuildLoop], by simpa [abuildLoop] using hkb, by simp [abuildLoop],
      fun j _ => by simp [abuildLoop], fun t ht => absurd ht (by simp)⟩
  | cons te rest ih =>
    intro i0 db hkb
    have hfresh : dictHas db.vectors (chunkKey db.chunk_counter) = false :=
      fresh_chunkKey hkb le_rfl
    have hvec1 : (abuildStep mdl i0 te db).vectors = db.vectors ++
        [(chunkKey db.chunk_counter, ⟨te.2, chunkMetadata mdl i0⟩)] :=
      abuildStep_vectors mdl i0 te db hfresh
    have hc1 : (abuildStep mdl i0 te db).chunk_counter = db.chunk_counter + 1 := rfl
    have hkb1 : KeysBounded (abuildStep mdl i0 te db) := by
      intro p hp
      rw [hvec1, List.mem_append] at hp
      rcases hp with hp | hp
      · obtain ⟨j, hj, hpj⟩ := hkb p hp
        exact ⟨j, by omega, hpj⟩
      · rw [List.mem_singleton] at hp
        exact ⟨db.chunk_counter, by omega, by rw [hp]⟩
    obtain ⟨ihc, ihkb, ihlen, ihpres, ihnew⟩ := ih (i0 + 1) (abuildStep mdl i0 te db) hkb1
    have hloop : abuildLoop mdl i0 (te :: rest) db =
        abuildLoop mdl (i0 + 1) rest (abuildStep mdl i0 te db) := rfl
    rw [hloop]
    refine ⟨?_, ihkb, ?_, ?_, ?_⟩
    · rw [ihc, hc1, List.length_cons]
      omega
    · rw [ihlen, hvec1, List.length_append]
      simp only [List.length_cons, List.length_nil]
      omega
    · intro j hj
      rw [ihpres j (by rw [hc1]; omega), hvec1,
        dictGet?_append_single_ne _ _ (fun he => by have := chunkKey_inj he; omega)]
    · intro t ht
      cases t with
      | zero =>
        have h0 : dictGet? (abuildStep mdl i0 te db).vectors (chunkKey db.chunk_counter) =
            some ⟨te.2, chunkMetadata mdl i0⟩ := by
          rw [hvec1]
          exact dictGet?_append_of_not_has _ hfresh
        have hpres0 := ihpres db.chunk_counter (by rw [hc1]; omega)
        simp only [Nat.add_zero]
        rw [hpres0, h0]
        simp
      | succ t =>
        have e1 : db.chunk_counter + (t + 1) =
            (abuildStep mdl i0 te db).chunk_counter + t := by
          rw [hc1]; omega
        have e2 : i0 + (t + 1) = (i0 + 1) + t := by omega
        rw [e1, e2]
        exact ihnew t (by simpa using ht)

/-- C4: on an ingestion call with `N` texts, a parallel `N`-entry metadata
list and `N` embeddings, `abuild_from_list` advances the key counter by `N`,
keeps the store invariant (so further ingestion calls stay fresh), grows the
store by exactly `N` records (the `N` assigned keys are store-unique), stores
the `i`-th record under `chunkKey (counter + i)` with metadata `chunk_index`
stamped `i` (restarting at `0` on each call rather than accumulating), and
the `N` assigned keys are pairwise distinct. -/
theorem c4_build_assigns_fresh_keys_and_indices (db : VectorDatabase)
    (texts : List String) (embeddings : List Vec) (ml : List Metadata) (N : Nat)
    (hkb : KeysBounded db) (htl : texts.length = N) (hel : embeddings.length = N)
    (hml : ml.length = N) :
    (db.abuild_from_list texts embeddings (some ml)).chunk_counter =
        db.chunk_counter + N ∧
      KeysBounded (db.abuild_from_list texts embeddings (some ml)) ∧
      (db.abuild_from_list texts embeddings (some ml)).vectors.length =
        db.vectors.length + N ∧
      (∀ i < N, ∃ vwm : VectorWithMetadata,
        dictGet? (db.abuild_from_list texts embeddings (some ml)).vectors
            (chunkKey (db.chunk_counter + i)) = some vwm ∧
          dictGet? vwm.metadata "chunk_index" = some (MetaVal.int i)) ∧
      (∀ i j, i < N → j < N → i ≠ j →
        chunkKey (db.chunk_counter + i) ≠ chunkKey (db.chunk_counter + j)) := by
  have hz : (texts.zip embeddings).length = N := by
    rw [List.length_zip]; omega
  obtain ⟨hc, hkb2, hlen, _, hnew⟩ :=
    abuildLoop_spec (some ml) (texts.zip embeddings) 0 db hkb
  rw [VectorDatabase.abuild_from_list]
  refine ⟨by rw [hc, hz], hkb2, by rw [hlen, hz], ?_, ?_⟩
  · intro i hi
    have hi' : i < (texts.zip embeddings).length := by omega
    refine ⟨⟨((texts.zip embeddings).get ⟨i, hi'⟩).2, chunkMetadata (some ml) (0 + i)⟩,
      hnew i hi', ?_⟩
    have hml_ne : ml ≠ [] := by
      intro he
      rw [he] at hml
      simp at hml
      omega
    simp only [chunkMetadata, Nat.zero_add]
    rw [if_neg hml_ne, if_pos (by omega)]
    exact dictGet?_insert_self _ _ _
  · intro i j hi hj hij he
    have := chunkKey_inj he
    omega

/-- The empty store used by the C4 witness. -/
def dbC4 : VectorDatabase := ⟨[], [], 0⟩

/-- Witness for C4: ingesting two texts with two metadata entries into the
empty store. -/
theorem c4_build_assigns_fresh_keys_and_indices_witness :
    (KeysBounded dbC4 ∧ (["a", "b"] : List String).length = 2 ∧
        ([[1], [2]] : List Vec).length = 2 ∧ ([[], []] : List Metadata).length = 2) ∧
      ((dbC4.abuild_from_list ["a", "b"] [[1], [2]] (some [[], []])).chunk_counter =
          dbC4.chunk_counter + 2 ∧
        KeysBounded (dbC4.abuild_from_list ["a", "b"] [[1], [2]] (some [[], []])) ∧
        (dbC4.abuild_from_list ["a", "b"] [[1], [2]] (some [[], []])).vectors.length =
          dbC4.vectors.length + 2 ∧
        (∀ i < 2, ∃ vwm : VectorWithMetadata,
          dictGet? (dbC4.abuild_from_list ["a", "b"] [[1], [2]]
              (some [[], []])).vectors (chunkKey (dbC4.chunk_counter + i)) = some vwm ∧
            dictGet? vwm.metadata "chunk_index" = some (MetaVal.int i)) ∧
        (∀ i j, i < 2 → j < 2 → i ≠ j →
          chunkKey (dbC4.chunk_counter + i) ≠ chunkKey (dbC4.chunk_counter + j))) :=
  ⟨⟨fun p hp => absurd hp (by simp [dbC4]), rfl, rfl, rfl⟩,
    c4_build_assigns_fresh_keys_and_indices dbC4 ["a", "b"] [[1], [2]] [[], []] 2
      (fun p hp => absurd hp (by simp [dbC4])) rfl rfl rfl⟩

/-!
### C7: query counter and error boundary
-/

/-- C7: `query` increments the queries-processed counter exactly once and
changes nothing else of the pipeline state, even when the body later fails;
and whenever any stage of the body raises (`queryBody` returns an error),
`query` returns the structured failure result instead of propagating. -/
theorem c7_query_counter_and_error_boundary (p : EnhancedRAGPipeline)
    (user_query : String) (k : Int) (distance_metric : Option String)
    (response_style : String) (include_metadata : Bool)
    (file_type_filter : Option String) :
    (p.query user_query k distance_metric response_style include_metadata
          file_type_filter).2 =
        { p with stats := { p.stats with
            queries_processed := p.stats.queries_processed + 1 } } ∧
      (∀ e, ({ p with stats := { p.stats with
            queries_processed := p.stats.queries_processed + 1 } } :
              EnhancedRAGPipeline).queryBody user_query k distance_metric response_style
            include_metadata file_type_filter = Except.error e →
        (p.query user_query k distance_metric response_style include_metadata
            file_type_filter).1 = QueryResult.err e) ∧
      (∀ r, ({ p with stats := { p.stats with
            queries_processed := p.stats.queries_processed + 1 } } :
              EnhancedRAGPipeline).queryBody user_query k distance_metric response_style
            include_metadata file_type_filter = Except.ok r →
        (p.query user_query k distance_metric response_style include_metadata
            file_type_filter).1 = r) := by
  rw [EnhancedRAGPipeline.query]
  cases hb : ({ p with stats := { p.stats with
      queries_processed := p.stats.queries_processed + 1 } } :
        EnhancedRAGPipeline).queryBody user_query k distance_metric response_style
      include_metadata file_type_filter with
  | ok r =>
    refine ⟨rfl, ?_, ?_⟩
    · intro e he
      exact nomatch he
    · intro r' hr
      injection hr with h
  | error e =>
    refine ⟨rfl, ?_, ?_⟩
    · intro e' he
      injection he with h
      exact h ▸ rfl
    · intro r' hr
      exact nomatch hr

/-- The concrete pipeline used by the C7 witness: its embedding collaborator
always raises. -/
def pipeC7 : EnhancedRAGPipeline :=
  { distance_metric := "cosine"
    vector_db := ⟨[], [], 0⟩
    stats := ⟨0, 0, 0, 0, 0, 0⟩
    embed := fun _ => Except.error "embedding failure"
    chatRun := fun _ _ => Except.ok "unused" }

/-- Witness for C7: on a pipeline whose embedding collaborator raises, the
counter still advances from 0 to 1 and the result is the structured failure
carrying the collaborator's message. -/
theorem c7_query_counter_and_error_boundary_witness :
    ({ pipeC7 with stats := { pipeC7.stats with
          queries_processed := pipeC7.stats.queries_processed + 1 } } :
            EnhancedRAGPipeline).queryBody "q" 4 Option.none "detailed" false
          Option.none = Except.error "embedding failure" ∧
      (pipeC7.query "q" 4 Option.none "detailed" false Option.none).1 =
        QueryResult.err "embedding failure" ∧
      (pipeC7.query "q" 4 Option.none "detailed" false Option.none).2.stats.queries_processed = 1 :=
  ⟨rfl,
    (c7_query_counter_and_error_boundary pipeC7 "q" 4 Option.none "detailed" false
        Option.none).2.1 "embedding failure" rfl,
    by rw [(c7_query_counter_and_error_boundary pipeC7 "q" 4 Option.none "detailed" false
        Option.none).1]; rfl⟩

/-!
### C9: read-only operations leave the store unchanged
-/

/-- C9: `search`, `retrieve_from_key` and `get_database_stats` leave the
whole store state — key-to-record mapping, text-to-key reverse mapping, and
key counter — unchanged, for every key (present or absent), query vector,
metric and filter. -/
theorem c9_reads_do_not_mutate (db : VectorDatabase) (q : Vec) (k : Int)
    (dm : DistanceMeasure) (filt : Option String) (key : String) :
    (db.searchOp q k dm filt).2 = db ∧
      (db.retrieveFromKeyOp key).2 = db ∧
      db.getDatabaseStatsOp.2 = db :=
  ⟨rfl, rfl, rfl⟩
